import Mathlib

/-!
Shallow embedding of `src/keyboard_singer.py` (repository keyboard-singer).

Modelling conventions:
* Python floats (monotonic timestamps, gate seconds) are modelled as
  rationals (`ℚ`); MIDI note identifiers as integers.
* Python list indexing `xs[i]` is modelled with `List.getD i default`;
  every theorem that touches indexing carries the invariants that make
  the Python access in bounds, so the default is never reached there.
* The mutable `KeyboardSinger` object is modelled by explicit state
  passing: each method takes the state and returns the result together
  with the updated state.
-/

/-- Data class `Song` (src/keyboard_singer.py lines 24-27). -/
structure Song where
  name : String
  notes : List Int
  deriving DecidableEq, Repr

/-- Result of one accepted trigger: the data appearing in the status line
printed by `handle_press` (lines 91-94). -/
structure TriggerResult where
  songName : String
  note : Int
  displayPosition : Nat
  songLength : Nat
  deriving DecidableEq, Repr

/-- State of a `KeyboardSinger` object (fields set in `__init__`,
lines 55-59).  The `threading.Lock` of line 60 has no data content. -/
structure KeyboardSinger where
  songs : List Song
  song_index : Nat
  note_index : Nat
  gate_seconds : ℚ
  last_trigger : ℚ
  deriving DecidableEq, Repr

/-- Constructor `KeyboardSinger.__init__` (lines 51-60): raises
`ValueError` on an empty song list, clamps the gate to be non-negative
(Python `max(0.0, gate_seconds)`, written here as an explicit
conditional with the same value), and starts both cursors at 0 with
`last_trigger = 0.0`. -/
def KeyboardSinger.init (songs : List Song) (gate_seconds : ℚ) :
    Except String KeyboardSinger :=
  if songs = [] then
    Except.error "At least one song is required"
  else
    Except.ok
      { songs := songs
        song_index := 0
        note_index := 0
        gate_seconds := if gate_seconds < 0 then 0 else gate_seconds
        last_trigger := 0 }

/-- Property `current_song` (lines 62-64): `self.songs[self.song_index]`. -/
def KeyboardSinger.current_song (s : KeyboardSinger) : Song :=
  s.songs.getD s.song_index ⟨"", []⟩

/-- Method `next_note` (lines 66-70): read the note under the cursor,
advance the cursor modulo the song length, return the note. -/
def KeyboardSinger.next_note (s : KeyboardSinger) : Int × KeyboardSinger :=
  let song := s.current_song
  let note := song.notes.getD s.note_index 0
  (note, { s with note_index := (s.note_index + 1) % song.notes.length })

/-- Method `restart` (lines 72-74): reset the note cursor to 0. -/
def KeyboardSinger.restart (s : KeyboardSinger) : KeyboardSinger :=
  { s with note_index := 0 }

/-- Method `handle_press` (lines 80-94), the advance operation.  The body
of the `with self.lock` block: debounce check against the gate, then
timestamp update, cursor advance and computation of the displayed
position (`self.note_index or len(song.notes)`, line 88). -/
def KeyboardSinger.handle_press (s : KeyboardSinger) (now : ℚ) :
    Option TriggerResult × KeyboardSinger :=
  if now - s.last_trigger < s.gate_seconds then
    (none, s)
  else
    let s1 := { s with last_trigger := now }
    let (note, s2) := s1.next_note
    let song := s2.current_song
    let current_position :=
      if s2.note_index = 0 then song.notes.length else s2.note_index
    (some ⟨song.name, note, current_position, song.notes.length⟩, s2)

/-- Python `repr` of a string, modelled for the quote-free, escape-free
song names occurring here: wrap in single quotes (the `!r` conversion of
the f-string on line 92). -/
def pyStrRepr (s : String) : String := "\x27" ++ s ++ "\x27"

/-- The status line printed for an accepted trigger (lines 91-94):
`song=<name!r> note=<id> index=<position>/<length>`. -/
def statusLine (r : TriggerResult) : String :=
  "song=" ++ pyStrRepr r.songName ++ " note=" ++ toString r.note ++
    " index=" ++ toString r.displayPosition ++ "/" ++ toString r.songLength

/-- `handle_press` together with its observable output: the list of
status lines it prints (one per accepted trigger, none when debounced;
lines 84 and 91-94). -/
def KeyboardSinger.handle_press_out (s : KeyboardSinger) (now : ℚ) :
    Option TriggerResult × KeyboardSinger × List String :=
  match s.handle_press now with
  | (none, s2) => (none, s2, [])
  | (some r, s2) => (some r, s2, [statusLine r])

/-- Run a sequence of trigger attempts (one `handle_press` per observed
key press, at the given monotonic times) and collect the results. -/
def KeyboardSinger.runTriggers :
    KeyboardSinger → List ℚ → List (Option TriggerResult) × KeyboardSinger
  | s, [] => ([], s)
  | s, t :: ts =>
    let step := s.handle_press t
    let rest := step.2.runTriggers ts
    (step.1 :: rest.1, rest.2)

/-- The four-note example song of the spec (first four notes of the
built-in `Twinkle Fragment`). -/
def twinkleSong : Song := ⟨"Twinkle", [60, 60, 67, 67]⟩

/-- A freshly constructed singer on `twinkleSong` with gate 0. -/
def twState : KeyboardSinger := ⟨[twinkleSong], 0, 0, 0, 0⟩

/-- A freshly constructed singer on `twinkleSong` with gate 1. -/
def gateState : KeyboardSinger := ⟨[twinkleSong], 0, 0, 1, 0⟩

/-- A debounced trigger (gate check true) returns no result and leaves
the state untouched. -/
theorem handle_press_rejected (s : KeyboardSinger) (now : ℚ)
    (h : now - s.last_trigger < s.gate_seconds) :
    s.handle_press now = (none, s) := by
  simp [KeyboardSinger.handle_press, h]

/-- An accepted trigger (gate check false, cursor in bounds) reads the
note under the cursor, reports the 1-based position of that note, and
advances the cursor by one modulo the song length. -/
theorem handle_press_accepted (s : KeyboardSinger) (now : ℚ)
    (hn : s.note_index < s.current_song.notes.length)
    (h : ¬ now - s.last_trigger < s.gate_seconds) :
    s.handle_press now =
      (some ⟨s.current_song.name, s.current_song.notes.getD s.note_index 0,
          s.note_index + 1, s.current_song.notes.length⟩,
        { s with
            last_trigger := now
            note_index := (s.note_index + 1) % s.current_song.notes.length }) := by
  have hpos : (if (s.note_index + 1) % s.current_song.notes.length = 0 then
        s.current_song.notes.length
      else (s.note_index + 1) % s.current_song.notes.length) = s.note_index + 1 := by
    rcases Nat.lt_or_ge (s.note_index + 1) s.current_song.notes.length with hlt | hge
    · rw [if_neg (by rw [Nat.mod_eq_of_lt hlt]; exact Nat.succ_ne_zero _),
        Nat.mod_eq_of_lt hlt]
    · have heq : s.note_index + 1 = s.current_song.notes.length :=
        Nat.le_antisymm hn hge
      rw [if_pos (by rw [heq, Nat.mod_self]), heq]
  simp only [KeyboardSinger.handle_press, KeyboardSinger.next_note, if_neg h]
  simp only [KeyboardSinger.current_song] at hpos ⊢
  rw [hpos]

/-- Unfolding equation for `runTriggers` on a non-empty list of times. -/
theorem runTriggers_cons (s : KeyboardSinger) (t : ℚ) (ts : List ℚ) :
    s.runTriggers (t :: ts) =
      ((s.handle_press t).1 :: ((s.handle_press t).2.runTriggers ts).1,
        ((s.handle_press t).2.runTriggers ts).2) := rfl

/-- When every trigger of a run is accepted, the k-th result (0-based)
plays the note `(note_index + k) mod L` of the unchanged current song and
displays position `(note_index + k) mod L + 1`. -/
theorem runTriggers_all_accepted (times : List ℚ) (s : KeyboardSinger)
    (hn : s.note_index < s.current_song.notes.length)
    (hacc : ∀ r ∈ (s.runTriggers times).1, r.isSome)
    (k : Nat) (hk : k < times.length) :
    (s.runTriggers times).1.getD k none =
      some ⟨s.current_song.name,
        s.current_song.notes.getD ((s.note_index + k) % s.current_song.notes.length) 0,
        (s.note_index + k) % s.current_song.notes.length + 1,
        s.current_song.notes.length⟩ := by
  induction times generalizing s k with
  | nil => simp at hk
  | cons t ts ih =>
    have hL : 0 < s.current_song.notes.length := Nat.lt_of_le_of_lt (Nat.zero_le _) hn
    have hgate : ¬ t - s.last_trigger < s.gate_seconds := by
      intro hcontra
      have hmem : (s.handle_press t).1 ∈ (s.runTriggers (t :: ts)).1 := by
        rw [runTriggers_cons]; exact List.mem_cons_self _ _
      have := hacc _ hmem
      rw [handle_press_rejected s t hcontra] at this
      simp at this
    have hstep := handle_press_accepted s t hn hgate
    have hs2song : (s.handle_press t).2.current_song = s.current_song := by
      rw [hstep]; rfl
    have hs2idx : (s.handle_press t).2.note_index =
        (s.note_index + 1) % s.current_song.notes.length := by
      rw [hstep]
    cases k with
    | zero =>
      rw [runTriggers_cons]
      simp only [List.getD_cons_zero, hstep, Nat.add_zero, Nat.mod_eq_of_lt hn]
    | succ k =>
      have hacc2 : ∀ r ∈ ((s.handle_press t).2.runTriggers ts).1, r.isSome := by
        intro r hr
        exact hacc r (by rw [runTriggers_cons]; exact List.mem_cons_of_mem _ hr)
      have hn2 : (s.handle_press t).2.note_index <
          (s.handle_press t).2.current_song.notes.length := by
        rw [hs2idx, hs2song]; exact Nat.mod_lt _ hL
      have hk2 : k < ts.length := by simpa using Nat.lt_of_succ_lt_succ hk
      have hkth := ih (s.handle_press t).2 hn2 hacc2 k hk2
      rw [hs2song, hs2idx] at hkth
      rw [runTriggers_cons]
      simp only [List.getD_cons_succ]
      rw [hkth, Nat.mod_add_mod]
      have harith : s.note_index + 1 + k = s.note_index + (k + 1) := by omega
      rw [harith]

/-- C1: for every non-empty song, starting with `note_index = 0`, the
K-th accepted trigger of a run in which every trigger is accepted
returns note `notes[(K-1) mod L]` and display position
`((K-1) mod L) + 1` (so the displayed position is never 0 and reaches
`L` exactly at song-length boundaries). -/
theorem C1_accepted_sequence (s : KeyboardSinger) (times : List ℚ)
    (h0 : s.note_index = 0)
    (hL : 0 < s.current_song.notes.length)
    (hacc : ∀ r ∈ (s.runTriggers times).1, r.isSome)
    (K : Nat) (hK1 : 1 ≤ K) (hKN : K ≤ times.length) :
    (s.runTriggers times).1.getD (K - 1) none =
      some ⟨s.current_song.name,
        s.current_song.notes.getD ((K - 1) % s.current_song.notes.length) 0,
        (K - 1) % s.current_song.notes.length + 1,
        s.current_song.notes.length⟩ := by
  have hn : s.note_index < s.current_song.notes.length := by rw [h0]; exact hL
  have := runTriggers_all_accepted times s hn hacc (K - 1) (by omega)
  rw [h0] at this
  simpa using this

/-- Witness for C1: the spec end-to-end example, fifth trigger wraps
back to note 60 at display position 1/4. -/
theorem C1_accepted_sequence_witness :
    (twState.runTriggers [0, 0, 0, 0, 0]).1.getD 4 none =
      some ⟨"Twinkle", 60, 1, 4⟩ := by
  have h := C1_accepted_sequence twState [0, 0, 0, 0, 0] rfl (by decide)
    (by simp [twState, twinkleSong, KeyboardSinger.runTriggers,
      KeyboardSinger.handle_press, KeyboardSinger.next_note,
      KeyboardSinger.current_song]) 5 (by decide) (by decide)
  simpa [twState, twinkleSong, KeyboardSinger.current_song] using h

/-- C2: a trigger inside the gate window returns no result and leaves
the whole state (song cursor, note cursor, last trigger time)
unchanged. -/
theorem C2_debounced_noop (s : KeyboardSinger) (now : ℚ)
    (h : now - s.last_trigger < s.gate_seconds) :
    s.handle_press now = (none, s) :=
  handle_press_rejected s now h

/-- Witness for C2: with gate 1 and both clocks at 0 the trigger is
debounced and the state is returned unchanged. -/
theorem C2_debounced_noop_witness :
    gateState.handle_press 0 = (none, gateState) :=
  C2_debounced_noop gateState 0 (by simp [gateState])

/-- C3: a negative gate is clamped to 0 at construction, and with
`gate_seconds = 0` every trigger at a time at or after the last trigger
is accepted. -/
theorem C3_zero_gate_accepts :
    (∀ (songs : List Song) (g : ℚ) (s : KeyboardSinger),
        KeyboardSinger.init songs g = Except.ok s → g ≤ 0 →
        s.gate_seconds = 0) ∧
    (∀ (s : KeyboardSinger) (now : ℚ), s.gate_seconds = 0 →
        s.last_trigger ≤ now → ((s.handle_press now).1).isSome) := by
  constructor
  · intro songs g s hok hg
    by_cases hs : songs = []
    · simp [KeyboardSinger.init, hs] at hok
    · simp [KeyboardSinger.init, hs] at hok
      rcases lt_or_eq_of_le hg with hlt | heq
      · rw [← hok]; simp [hlt]
      · rw [← hok]; simp [← heq]
  · intro s now hg hle
    have h : ¬ now - s.last_trigger < s.gate_seconds := by
      rw [hg]
      exact not_lt.mpr (sub_nonneg.mpr hle)
    simp [KeyboardSinger.handle_press, h]

/-- Witness for C3: constructing with gate -1 stores gate 0, and the
resulting state accepts a trigger at time 0. -/
theorem C3_zero_gate_accepts_witness :
    twState.gate_seconds = 0 ∧ ((twState.handle_press 0).1).isSome :=
  ⟨C3_zero_gate_accepts.1 [twinkleSong] (-1) twState
      (by simp [KeyboardSinger.init, twState]) (by simp),
    C3_zero_gate_accepts.2 twState 0 rfl le_rfl⟩


/-- C4 counterexample: with gate 1 the freshly constructed state has
`last_trigger = 0.0`, so the very first trigger at monotonic time 0 is
debounced (`0 - 0 < 1`), not accepted as the claim states. -/
theorem C4_first_trigger_rejected :
    (gateState.handle_press 0).1 = none := by
  simp [gateState, KeyboardSinger.handle_press]

/-- C4 (amended): with gate 1.0 on the fresh state, the triggers at
t = 0 and t = 0.5 are both rejected with no state change, and the
trigger at t = 1.0 (the boundary `now - last_trigger = gate`) is the
first accepted one, yielding note 60 at display position 1/4. -/
theorem C4_gate_example :
    KeyboardSinger.init [twinkleSong] 1 = Except.ok gateState ∧
    gateState.handle_press 0 = (none, gateState) ∧
    gateState.handle_press (1 / 2) = (none, gateState) ∧
    (gateState.handle_press 1).1 = some ⟨"Twinkle", 60, 1, 4⟩ := by
  refine ⟨?_, ?_, ?_, ?_⟩
  · norm_num [KeyboardSinger.init, gateState, twinkleSong]
  · simp [gateState, KeyboardSinger.handle_press]
  · norm_num [gateState, KeyboardSinger.handle_press]
  · norm_num [gateState, twinkleSong, KeyboardSinger.handle_press,
      KeyboardSinger.next_note, KeyboardSinger.current_song]

/-- The two state invariants of the spec data model: the song cursor is
in bounds of the song list and the note cursor is in bounds of the
current song. -/
def Invariant (s : KeyboardSinger) : Prop :=
  s.song_index < s.songs.length ∧ s.note_index < s.current_song.notes.length

/-- Well-formedness of the loaded songs: every note list is non-empty. -/
def SongsWF (s : KeyboardSinger) : Prop :=
  ∀ song ∈ s.songs, song.notes ≠ []

/-- C5: with a non-empty song list whose songs all have non-empty note
lists, construction establishes both cursor invariants and the advance
operation and `restart` preserve them. -/
theorem C5_invariants_preserved :
    (∀ (songs : List Song) (g : ℚ) (s : KeyboardSinger), songs ≠ [] →
        (∀ song ∈ songs, song.notes ≠ []) →
        KeyboardSinger.init songs g = Except.ok s → Invariant s) ∧
    (∀ (s : KeyboardSinger) (now : ℚ), SongsWF s → Invariant s →
        Invariant (s.handle_press now).2) ∧
    (∀ s : KeyboardSinger, SongsWF s → Invariant s → Invariant s.restart) := by
  refine ⟨?_, ?_, ?_⟩
  · intro songs g s hne hwf hok
    simp [KeyboardSinger.init, hne] at hok
    rcases songs with _ | ⟨song0, rest⟩
    · exact absurd rfl hne
    · have h0 : song0.notes ≠ [] := hwf song0 (List.mem_cons_self _ _)
      constructor
      · rw [← hok]; simp
      · rw [← hok]
        simpa [KeyboardSinger.current_song] using List.length_pos.mpr h0
  · intro s now _ hinv
    rcases hinv with ⟨hsong, hnote⟩
    by_cases hgate : now - s.last_trigger < s.gate_seconds
    · rw [handle_press_rejected s now hgate]; exact ⟨hsong, hnote⟩
    · rw [handle_press_accepted s now hnote hgate]
      have hL : 0 < s.current_song.notes.length :=
        Nat.lt_of_le_of_lt (Nat.zero_le _) hnote
      refine ⟨hsong, ?_⟩
      simpa [KeyboardSinger.current_song] using Nat.mod_lt _ hL
  · intro s _ hinv
    rcases hinv with ⟨hsong, hnote⟩
    have hL : 0 < s.current_song.notes.length :=
      Nat.lt_of_le_of_lt (Nat.zero_le _) hnote
    exact ⟨hsong, by simpa [KeyboardSinger.restart, KeyboardSinger.current_song]
      using hL⟩

/-- Witness for C5: the example state satisfies the invariants after an
accepted trigger and after a restart. -/
theorem C5_invariants_preserved_witness :
    Invariant (twState.handle_press 0).2 ∧ Invariant twState.restart := by
  have hinv : Invariant twState := ⟨by decide, by decide⟩
  have hwf : SongsWF twState := by
    intro song hmem
    simp [twState, twinkleSong] at hmem
    simp [hmem]
  exact ⟨C5_invariants_preserved.2.1 twState 0 hwf hinv,
    C5_invariants_preserved.2.2 twState hwf hinv⟩

/-- C6: construction on an empty song list fails with the ValueError
message; a negative gate is clamped to 0 while construction succeeds;
a non-negative gate is stored as given; in both success cases the state
starts at song 0, note 0, last trigger 0. -/
theorem C6_construction :
    (∀ g : ℚ, KeyboardSinger.init [] g =
        Except.error "At least one song is required") ∧
    (∀ (songs : List Song) (g : ℚ), songs ≠ [] → g < 0 →
        KeyboardSinger.init songs g = Except.ok ⟨songs, 0, 0, 0, 0⟩) ∧
    (∀ (songs : List Song) (g : ℚ), songs ≠ [] → 0 ≤ g →
        KeyboardSinger.init songs g = Except.ok ⟨songs, 0, 0, g, 0⟩) := by
  refine ⟨?_, ?_, ?_⟩
  · intro g; simp [KeyboardSinger.init]
  · intro songs g hne hneg
    simp [KeyboardSinger.init, hne, hneg]
  · intro songs g hne hpos
    simp [KeyboardSinger.init, hne, not_lt.mpr hpos]

/-- Witness for C6: a negative gate of -1 is clamped to 0 and a gate of
2 is stored unchanged, both on the one-song list. -/
theorem C6_construction_witness :
    KeyboardSinger.init [twinkleSong] (-1) =
        Except.ok ⟨[twinkleSong], 0, 0, 0, 0⟩ ∧
    KeyboardSinger.init [twinkleSong] 2 =
        Except.ok ⟨[twinkleSong], 0, 0, 2, 0⟩ :=
  ⟨C6_construction.2.1 [twinkleSong] (-1) (by simp) (by norm_num),
    C6_construction.2.2 [twinkleSong] 2 (by simp) (by norm_num)⟩

/-- C8: an accepted trigger from a state with the cursor in bounds emits
exactly one status line, built from the current song name (in Python
repr form), the note just played, the wrapped 1-based position and the
song length; a debounced trigger emits none. -/
theorem C8_status_line (s : KeyboardSinger) (now : ℚ)
    (hn : s.note_index < s.current_song.notes.length) :
    (((s.handle_press now).1).isSome →
      (s.handle_press_out now).2.2 =
        ["song=" ++ pyStrRepr s.current_song.name ++
          " note=" ++ toString (s.current_song.notes.getD s.note_index 0) ++
          " index=" ++ toString (s.note_index + 1) ++ "/" ++
          toString s.current_song.notes.length]) ∧
    ((s.handle_press now).1 = none → (s.handle_press_out now).2.2 = []) := by
  constructor
  · intro hsome
    by_cases hgate : now - s.last_trigger < s.gate_seconds
    · rw [handle_press_rejected s now hgate] at hsome
      simp at hsome
    · have hstep := handle_press_accepted s now hn hgate
      simp [KeyboardSinger.handle_press_out, hstep, statusLine]
  · intro hnone
    unfold KeyboardSinger.handle_press_out
    rcases hpr : s.handle_press now with ⟨r, s2⟩
    rw [hpr] at hnone
    simp only at hnone
    subst hnone
    rfl

/-- Witness for C8: the first accepted trigger of the example prints the
single line for note 60 at position 1 of 4. -/
theorem C8_status_line_witness :
    (twState.handle_press_out 0).2.2 =
      ["song=\x27Twinkle\x27 note=60 index=1/4"] := by
  rw [(C8_status_line twState 0 (by decide)).1
    (by simp [twState, twinkleSong, KeyboardSinger.handle_press,
      KeyboardSinger.next_note, KeyboardSinger.current_song])]
  rfl

/-- One MIDI track message, restricted to the fields read by
`load_midi_notes` (mido message fields: type, note, velocity, delta
time in ticks; delta times in a MIDI track are non-negative). -/
structure MidiMessage where
  type : String
  note : Int
  velocity : Nat
  time : Nat
  deriving DecidableEq, Repr

/-- A parsed MIDI file, as the list of its tracks (mido
`MidiFile.tracks`). -/
structure MidiFile where
  tracks : List (List MidiMessage)
  deriving DecidableEq, Repr

/-- The collection condition of line 112: a `note_on` message with
strictly positive velocity. -/
def isPlayableNoteOn (m : MidiMessage) : Bool :=
  decide (m.type = "note_on") && decide (0 < m.velocity)

/-- Inner loop of `load_midi_notes` (lines 109-113): accumulate delta
times into absolute ticks and collect `(ticks, note)` for every
playable note-on message. -/
def trackEvents (ticks : Nat) : List MidiMessage → List (Nat × Int)
  | [] => []
  | m :: rest =>
    if isPlayableNoteOn m then
      (ticks + m.time, m.note) :: trackEvents (ticks + m.time) rest
    else
      trackEvents (ticks + m.time) rest

/-- Comparison of the `notes.sort(key=lambda item: item[0])` call
(line 115): order by absolute tick only.  Python `list.sort` is a
stable sort; `List.mergeSort` is the stable sort used to model it. -/
def tickLE (a b : Nat × Int) : Bool := a.1 ≤ b.1

/-- The per-file event list before sorting: the events of each track in
track order, tracks concatenated in file order (lines 106-113). -/
def midiPairs (midi : MidiFile) : List (Nat × Int) :=
  (midi.tracks.map (trackEvents 0)).flatten

/-- The sorted event list of line 115. -/
def sortedMidiPairs (midi : MidiFile) : List (Nat × Int) :=
  (midiPairs midi).mergeSort tickLE

/-- Function `load_midi_notes` (lines 104-116): collect all playable
note-on events with absolute tick times, sort stably by tick, return
the notes. -/
def load_midi_notes (midi : MidiFile) : List Int :=
  (sortedMidiPairs midi).map Prod.snd

/-- The tick accumulator does not influence which notes are collected:
per track, the collected notes are exactly the notes of the playable
note-on messages in order. -/
theorem trackEvents_map_snd (track : List MidiMessage) : ∀ ticks : Nat,
    (trackEvents ticks track).map Prod.snd =
      (track.filter isPlayableNoteOn).map MidiMessage.note := by
  induction track with
  | nil => intro ticks; rfl
  | cons m rest ih =>
    intro ticks
    cases hm : isPlayableNoteOn m with
    | true => simp [trackEvents, hm, List.filter_cons, ih]
    | false => simp [trackEvents, hm, List.filter_cons, ih]

/-- Transitivity of the tick comparison. -/
theorem tickLE_trans : ∀ a b c : Nat × Int, tickLE a b → tickLE b c → tickLE a c := by
  intro a b c hab hbc
  simp only [tickLE, decide_eq_true_eq] at *
  omega

/-- Totality of the tick comparison. -/
theorem tickLE_total : ∀ a b : Nat × Int, tickLE a b || tickLE b a := by
  intro a b
  simp only [tickLE]
  rcases Nat.le_total a.1 b.1 with h | h <;> simp [h]

/-- C10: the MIDI extraction returns exactly the notes of the
`note_on` messages with positive velocity; the underlying pair list is
a permutation of the per-track absolute-tick events, is sorted by tick,
and is stable: events with equal ticks keep their track-traversal
order. -/
theorem C10_midi_extraction (midi : MidiFile) :
    load_midi_notes midi = (sortedMidiPairs midi).map Prod.snd ∧
    (sortedMidiPairs midi).Perm (midiPairs midi) ∧
    (midiPairs midi).map Prod.snd =
      (midi.tracks.map
        (fun track => (track.filter isPlayableNoteOn).map MidiMessage.note)).flatten ∧
    (sortedMidiPairs midi).Pairwise (fun a b : Nat × Int => a.1 ≤ b.1) ∧
    (∀ t : Nat, (sortedMidiPairs midi).filter (fun p => p.1 == t) =
      (midiPairs midi).filter (fun p => p.1 == t)) := by
  refine ⟨rfl, List.mergeSort_perm _ _, ?_, ?_, ?_⟩
  · show ((midi.tracks.map (trackEvents 0)).flatten).map Prod.snd = _
    rw [List.map_flatten, List.map_map]
    have hfun : (List.map Prod.snd ∘ trackEvents 0) =
        (fun track => (track.filter isPlayableNoteOn).map MidiMessage.note) := by
      funext track
      exact trackEvents_map_snd track 0
    rw [hfun]
  · have hs := List.sorted_mergeSort tickLE_trans tickLE_total (midiPairs midi)
    refine List.Pairwise.imp ?_ hs
    intro a b hab
    simpa [tickLE] using hab
  · intro t
    have hmemt : ∀ p ∈ (midiPairs midi).filter (fun p => p.1 == t), p.1 = t := by
      intro p hp
      simpa using List.of_mem_filter hp
    have hpw : ((midiPairs midi).filter (fun p => p.1 == t)).Pairwise
        (fun a b => tickLE a b) :=
      List.pairwise_of_forall_mem_list (fun a ha b hb => by
        simp [tickLE, hmemt a ha, hmemt b hb])
    have hsub : List.Sublist ((midiPairs midi).filter (fun p => p.1 == t))
        ((midiPairs midi).mergeSort tickLE) :=
      List.sublist_mergeSort tickLE_trans tickLE_total hpw
        (List.filter_sublist _)
    have hsub2 : List.Sublist ((midiPairs midi).filter (fun p => p.1 == t))
        (((midiPairs midi).mergeSort tickLE).filter (fun p => p.1 == t)) := by
      have hself : ((midiPairs midi).filter (fun p => p.1 == t)).filter
          (fun p => p.1 == t) = (midiPairs midi).filter (fun p => p.1 == t) :=
        List.filter_eq_self.mpr (fun a ha => by
          simpa using hmemt a ha)
      have := hsub.filter (fun p => p.1 == t)
      rwa [hself] at this
    have hperm : (((midiPairs midi).mergeSort tickLE).filter (fun p => p.1 == t)).Perm
        ((midiPairs midi).filter (fun p => p.1 == t)) :=
      (List.mergeSort_perm _ _).filter _
    exact (hsub2.eq_of_length hperm.length_eq.symm).symm

/-- Python `str.partition(":")` used on line 120, on the character
list: everything before the first colon, and the rest after it
(`none` when there is no colon, in which case Python returns an empty
body). -/
def breakAtColon : List Char → List Char × Option (List Char)
  | [] => ([], none)
  | c :: cs =>
    if c = ':' then ([], some cs)
    else
      let r := breakAtColon cs
      (c :: r.1, r.2)

/-- Python `str.split(",")` used on line 127, on the character list:
the (always non-empty) list of comma-separated pieces. -/
def splitOnComma : List Char → List (List Char)
  | [] => [[]]
  | c :: cs =>
    if c = ',' then [] :: splitOnComma cs
    else
      match splitOnComma cs with
      | [] => [[c]]
      | piece :: pieces => (c :: piece) :: pieces

/-- Leading-whitespace removal, one half of Python `str.strip()`. -/
def dropLeadingWS : List Char → List Char
  | [] => []
  | c :: cs => if c.isWhitespace then dropLeadingWS cs else c :: cs

/-- Python `str.strip()` (lines 127 and 133): remove whitespace from
both ends.  (Python strips a larger unicode whitespace class; the
inline song strings of this program are ASCII.) -/
def pyStrip (cs : List Char) : List Char :=
  (dropLeadingWS (dropLeadingWS cs).reverse).reverse

/-- Python `int(s)` applied to an already stripped item (line 127): an
optional sign followed by at least one ASCII digit.  (CPython also
accepts underscores between digits and unicode digits; the inline song
strings of this program are plain ASCII without underscores.) -/
def pyParseInt (s : List Char) : Option Int :=
  let digitsVal : List Char → Option Nat := fun ds =>
    if ds ≠ [] ∧ ds.all Char.isDigit then
      some (ds.foldl (fun n c => 10 * n + (c.toNat - 48)) 0)
    else
      none
  match s with
  | '+' :: rest => (digitsVal rest).map (fun n => (n : Int))
  | '-' :: rest => (digitsVal rest).map (fun n => -(n : Int))
  | l => (digitsVal l).map (fun n => (n : Int))

/-- Function `parse_builtin_song` (lines 119-133): the name is the part
before the first colon (stripped, defaulting to `custom` when blank),
the notes are the stripped non-empty comma-separated items after it;
errors for a missing note list, a non-integer note, or an empty note
list. -/
def parse_builtin_song (raw : String) : Except String Song :=
  let parts := breakAtColon raw.toList
  let body := parts.2.getD []
  if body = [] then
    Except.error "Builtin song must look like name:60,62,64"
  else
    let items := ((splitOnComma body).map pyStrip).filter (fun x => x ≠ [])
    match items.mapM pyParseInt with
    | none => Except.error "Invalid note list"
    | some notes =>
      if notes = [] then
        Except.error "Song needs at least one MIDI note"
      else
        let name := pyStrip parts.1
        Except.ok ⟨if name = [] then "custom" else String.mk name, notes⟩

/-- Function `build_default_songs` (lines 136-140). -/
def build_default_songs : List Song :=
  [⟨"Twinkle Fragment", [60, 60, 67, 67, 69, 69, 67, 65, 65, 64, 64, 62, 62, 60]⟩,
    ⟨"Ascending C Major", [60, 62, 64, 65, 67, 69, 71, 72]⟩]

/-- The MIDI loop of `collect_songs` (lines 161-166): one song per MIDI
file in argument order, failing at the first file with no playable
notes.  A file argument is modelled as its file name together with its
parsed content. -/
def collectMidiSongs : List (String × MidiFile) → Except String (List Song)
  | [] => Except.ok []
  | (fname, midi) :: rest =>
    let notes := load_midi_notes midi
    if notes = [] then
      Except.error ("No playable notes in MIDI file: " ++ fname)
    else
      match collectMidiSongs rest with
      | Except.error e => Except.error e
      | Except.ok others => Except.ok (⟨"MIDI:" ++ fname, notes⟩ :: others)

/-- Function `collect_songs` (lines 157-167): built-in songs first, then
the inline songs, then the MIDI songs. -/
def collect_songs (midi_files : List (String × MidiFile))
    (extra_songs : List Song) : Except String (List Song) :=
  match collectMidiSongs midi_files with
  | Except.error e => Except.error e
  | Except.ok midiSongs =>
    Except.ok (build_default_songs ++ extra_songs ++ midiSongs)

/-- Sequential parsing of the `--song` arguments by argparse
(`type=parse_builtin_song`, lines 147-153): the first malformed
specification aborts with its error. -/
def parseSongSpecs : List String → Except String (List Song)
  | [] => Except.ok []
  | spec :: rest =>
    match parse_builtin_song spec with
    | Except.error e => Except.error e
    | Except.ok song =>
      match parseSongSpecs rest with
      | Except.error e => Except.error e
      | Except.ok others => Except.ok (song :: others)

/-- SongSet construction as performed by `main` (lines 170-172): parse
the inline song specifications, then collect all songs. -/
def buildSongSet (midi_files : List (String × MidiFile))
    (song_specs : List String) : Except String (List Song) :=
  match parseSongSpecs song_specs with
  | Except.error e => Except.error e
  | Except.ok extra => collect_songs midi_files extra

/-- Parsing the inline specifications succeeds exactly when every
specification parses. -/
theorem parseSongSpecs_ok_iff (specs : List String) :
    (∃ l, parseSongSpecs specs = Except.ok l) ↔
      ∀ spec ∈ specs, ∃ song, parse_builtin_song spec = Except.ok song := by
  induction specs with
  | nil => simp [parseSongSpecs]
  | cons spec rest ih =>
    constructor
    · rintro ⟨l, hl⟩
      rw [parseSongSpecs] at hl
      cases hp : parse_builtin_song spec with
      | error e => rw [hp] at hl; cases hl
      | ok song =>
        rw [hp] at hl
        cases hr : parseSongSpecs rest with
        | error e => rw [hr] at hl; cases hl
        | ok others =>
          intro s hs
          rcases List.mem_cons.mp hs with rfl | hmem
          · exact ⟨song, hp⟩
          · exact ih.mp ⟨others, hr⟩ s hmem
    · intro h
      obtain ⟨song, hp⟩ := h spec (List.mem_cons_self _ _)
      obtain ⟨others, hr⟩ := ih.mpr (fun s hs => h s (List.mem_cons_of_mem _ hs))
      exact ⟨song :: others, by rw [parseSongSpecs, hp, hr]⟩

/-- The MIDI loop succeeds exactly when every file has playable notes. -/
theorem collectMidiSongs_ok_iff (mfs : List (String × MidiFile)) :
    (∃ l, collectMidiSongs mfs = Except.ok l) ↔
      ∀ mf ∈ mfs, load_midi_notes mf.2 ≠ [] := by
  induction mfs with
  | nil => simp [collectMidiSongs]
  | cons mf rest ih =>
    obtain ⟨fname, midi⟩ := mf
    by_cases hempty : load_midi_notes midi = []
    · rw [collectMidiSongs, if_pos hempty]
      constructor
      · rintro ⟨l, hl⟩; cases hl
      · intro h
        exact absurd hempty (h (fname, midi) (List.mem_cons_self _ _))
    · rw [collectMidiSongs, if_neg hempty]
      constructor
      · rintro ⟨l, hl⟩
        cases hr : collectMidiSongs rest with
        | error e => rw [hr] at hl; cases hl
        | ok others =>
          intro mf2 hmem
          rcases List.mem_cons.mp hmem with rfl | hmem2
          · exact hempty
          · exact ih.mp ⟨others, hr⟩ mf2 hmem2
      · intro h
        obtain ⟨others, hr⟩ :=
          ih.mpr (fun mf2 hm => h mf2 (List.mem_cons_of_mem _ hm))
        exact ⟨⟨"MIDI:" ++ fname, load_midi_notes midi⟩ :: others, by rw [hr]⟩

/-- Unfolding equation for `collect_songs`. -/
theorem collect_songs_eq (mfs : List (String × MidiFile)) (extra : List Song) :
    collect_songs mfs extra =
      match collectMidiSongs mfs with
      | Except.error e => Except.error e
      | Except.ok midiSongs =>
        Except.ok (build_default_songs ++ extra ++ midiSongs) := rfl

/-- C7: SongSet construction succeeds exactly when every inline song
specification parses (no missing note list, non-integer note or empty
note list) and every MIDI file yields at least one playable note; any
successful result is non-empty, since the built-in songs lead it. -/
theorem C7_song_set_construction (midi_files : List (String × MidiFile))
    (song_specs : List String) :
    ((∃ songs, buildSongSet midi_files song_specs = Except.ok songs) ↔
      ((∀ spec ∈ song_specs, ∃ song, parse_builtin_song spec = Except.ok song) ∧
        (∀ mf ∈ midi_files, load_midi_notes mf.2 ≠ []))) ∧
    (∀ songs, buildSongSet midi_files song_specs = Except.ok songs →
      songs ≠ []) := by
  constructor
  · constructor
    · rintro ⟨songs, hok⟩
      rw [buildSongSet] at hok
      cases hp : parseSongSpecs song_specs with
      | error e => rw [hp] at hok; cases hok
      | ok extra =>
        rw [hp] at hok
        have hok2 : collect_songs midi_files extra = Except.ok songs := hok
        rw [collect_songs_eq] at hok2
        cases hm : collectMidiSongs midi_files with
        | error e => rw [hm] at hok2; cases hok2
        | ok midiSongs =>
          exact ⟨(parseSongSpecs_ok_iff song_specs).mp ⟨extra, hp⟩,
            (collectMidiSongs_ok_iff midi_files).mp ⟨midiSongs, hm⟩⟩
    · rintro ⟨hspecs, hmidis⟩
      obtain ⟨extra, hp⟩ := (parseSongSpecs_ok_iff song_specs).mpr hspecs
      obtain ⟨midiSongs, hm⟩ := (collectMidiSongs_ok_iff midi_files).mpr hmidis
      refine ⟨build_default_songs ++ extra ++ midiSongs, ?_⟩
      rw [buildSongSet, hp]
      show collect_songs midi_files extra = _
      rw [collect_songs_eq, hm]
  · intro songs hok
    rw [buildSongSet] at hok
    cases hp : parseSongSpecs song_specs with
    | error e => rw [hp] at hok; cases hok
    | ok extra =>
      rw [hp] at hok
      have hok2 : collect_songs midi_files extra = Except.ok songs := hok
      rw [collect_songs_eq] at hok2
      cases hm : collectMidiSongs midi_files with
      | error e => rw [hm] at hok2; cases hok2
      | ok midiSongs =>
        rw [hm] at hok2
        have hok3 : Except.ok (build_default_songs ++ extra ++ midiSongs) =
            Except.ok songs := hok2
        injection hok3 with h
        rw [← h]
        simp [build_default_songs]

/-- Witness for C7: with no MIDI files and one well-formed inline song
the construction succeeds. -/
theorem C7_song_set_construction_witness :
    ∃ songs, buildSongSet [] ["mine:1,2,3"] = Except.ok songs :=
  (C7_song_set_construction [] ["mine:1,2,3"]).1.mpr
    ⟨by
      intro spec hs
      rw [List.mem_singleton] at hs
      subst hs
      exact ⟨⟨"mine", [1, 2, 3]⟩, by rfl⟩,
      by intro mf hmem; simp at hmem⟩
